import Mathlib

/-!
Verification of the voting / karma / comment-tree subsystem of a social
content-sharing web application (Express + Mongoose backend).

The definitions below are shallow embeddings of the JavaScript source.
Mongoose ObjectIds are modelled as natural numbers, Mongoose arrays as
Lean lists (indexOf followed by splice(i, 1) removes the first
occurrence, hence List.erase; push appends at the end), documents as
Lean structures, and the per-user karma table as a function from user
ids to integers.
-/

/-- Vote record of a post or a comment: two arrays of user ids
(postSchema / commentSchema, field votes with upvotes and downvotes). -/
structure Votes where
  upvotes : List Nat
  downvotes : List Nat
deriving DecidableEq

/-- postSchema.methods.upvote and commentSchema.methods.upvote (identical
bodies): if the user already upvoted, remove the upvote (toggle);
otherwise add the upvote and remove an existing downvote. -/
def Votes.upvote (v : Votes) (userId : Nat) : Votes :=
  if userId ∈ v.upvotes then
    { v with upvotes := v.upvotes.erase userId }
  else
    { upvotes := v.upvotes ++ [userId],
      downvotes := if userId ∈ v.downvotes then v.downvotes.erase userId else v.downvotes }

/-- postSchema.methods.downvote and commentSchema.methods.downvote:
mirror image of upvote. -/
def Votes.downvote (v : Votes) (userId : Nat) : Votes :=
  if userId ∈ v.downvotes then
    { v with downvotes := v.downvotes.erase userId }
  else
    { downvotes := v.downvotes ++ [userId],
      upvotes := if userId ∈ v.upvotes then v.upvotes.erase userId else v.upvotes }

/-- Virtual voteScore on posts and comments:
votes.upvotes.length - votes.downvotes.length. -/
def Votes.voteScore (v : Votes) : Int :=
  (v.upvotes.length : Int) - (v.downvotes.length : Int)

/-- Method hasVoted: the pair (upvoted, downvoted) of membership flags. -/
def Votes.hasVoted (v : Votes) (userId : Nat) : Bool × Bool :=
  (decide (userId ∈ v.upvotes), decide (userId ∈ v.downvotes))

/-- Karma part of the upvote route handlers (post.routes and
comment.routes): after calling the upvote method, the route computes
voteDiff from the state of the vote arrays AFTER the vote
(upvotes.includes gives 1, else downvotes.includes gives -1, else 0)
and adds it to the content author's karma. -/
def upvoteRoute (v : Votes) (authorKarma : Int) (voter : Nat) : Votes × Int :=
  let v2 := v.upvote voter
  let voteDiff : Int :=
    if voter ∈ v2.upvotes then 1 else if voter ∈ v2.downvotes then -1 else 0
  (v2, authorKarma + voteDiff)

/-- Karma part of the downvote route handlers (post.routes and
comment.routes): the route calls the downvote method and performs no
karma update at all. -/
def downvoteRoute (v : Votes) (authorKarma : Int) (voter : Nat) : Votes × Int :=
  (v.downvote voter, authorKarma)

/-- A vote request against a single entity: which voter and which of
the two vote routes is hit. -/
inductive VoteOp where
  | up (voter : Nat)
  | down (voter : Nat)
deriving DecidableEq

/-- One vote request applied to an entity's vote record together with
the content author's karma. -/
def applyOp (s : Votes × Int) (op : VoteOp) : Votes × Int :=
  match op with
  | .up voter => upvoteRoute s.1 s.2 voter
  | .down voter => downvoteRoute s.1 s.2 voter

/-- A sequence of vote requests against one entity. -/
def runOps (s : Votes × Int) (ops : List VoteOp) : Votes × Int :=
  ops.foldl applyOp s

/-- Direction of a single vote by a fixed voter. -/
inductive Dir where
  | up
  | down
deriving DecidableEq

/-- One call of the upvote or downvote method by a fixed voter. -/
def Votes.applyDir (v : Votes) (userId : Nat) : Dir → Votes
  | .up => v.upvote userId
  | .down => v.downvote userId

/-- A sequence of vote-method calls by one voter on one entity. -/
def runDirs (v : Votes) (userId : Nat) : List Dir → Votes
  | [] => v
  | d :: ds => runDirs (v.applyDir userId d) userId ds

/-- Comment document (commentSchema): the fields used by the verified
operations. createdAt is the Mongoose timestamp, modelled as a natural
number. -/
structure CommentRec where
  id : Nat
  post : Nat
  author : Nat
  content : String
  parentComment : Option Nat
  replies : List Nat
  votes : Votes
  isEdited : Bool
  isDeleted : Bool
  createdAt : Nat
deriving DecidableEq

/-- Post document (postSchema): the fields used by the verified
operations. -/
structure PostRec where
  id : Nat
  author : Nat
  title : String
  content : String
  comments : List Nat
  votes : Votes
  isDeleted : Bool
  createdAt : Nat
deriving DecidableEq

/-- commentSchema.methods.addReply: push the reply id onto replies
unless it is already present. -/
def CommentRec.addReply (c : CommentRec) (replyId : Nat) : CommentRec :=
  if replyId ∈ c.replies then c else { c with replies := c.replies ++ [replyId] }

/-- commentSchema.methods.softDelete: set isDeleted and replace the
content with the deletion placeholder; no other field is written. -/
def CommentRec.softDelete (c : CommentRec) : CommentRec :=
  { c with isDeleted := true, content := "[deleted]" }

/-- postSchema.methods.softDelete: set isDeleted; no other field is
written. -/
def PostRec.softDelete (p : PostRec) : PostRec :=
  { p with isDeleted := true }

/-- Creation-time order on comments (sort specification createdAt
ascending). -/
def createdLE (a b : CommentRec) : Prop := a.createdAt ≤ b.createdAt

instance : DecidableRel createdLE := fun a b => Nat.decLe a.createdAt b.createdAt

instance : IsTotal CommentRec createdLE := ⟨fun a b => Nat.le_total a.createdAt b.createdAt⟩

instance : IsTrans CommentRec createdLE := ⟨fun _ _ _ => Nat.le_trans⟩

/-- The query filter of commentSchema.statics.getReplies: comments
whose parentComment is the given id and which are not soft-deleted. -/
def replyPred (commentId : Nat) (c : CommentRec) : Bool :=
  decide (c.parentComment = some commentId ∧ c.isDeleted = false)

/-- commentSchema.statics.getReplies: find the comments matching
replyPred, sort by createdAt ascending, and cut off after limit
documents. The comment collection is modelled as the list of all
comment documents and the database sort as insertion sort. -/
def getReplies (store : List CommentRec) (commentId : Nat) (limit : Nat) : List CommentRec :=
  (List.insertionSort createdLE (store.filter (replyPred commentId))).take limit

/-- Whole-system state: the post collection, the comment collection and
the per-user karma table. -/
structure SysState where
  posts : List PostRec
  comments : List CommentRec
  karma : Nat → Int

/-- Failures surfaced by the createComment route (HTTP 400 validation
failure and the two 404 responses). -/
inductive CommentErr where
  | invalidContent
  | postNotFound
  | parentNotFound
deriving DecidableEq

/-- State produced by a successful createComment request (the body of
the route after all checks passed): save the new comment, push its id
onto the post's comments array, call addReply on the parent when
replying, and increment the author's karma by 1. -/
def buildState (s : SysState) (actorId postId : Nat) (content : String)
    (parentCommentId : Option Nat) (newId now : Nat) : SysState :=
  let newComment : CommentRec :=
    { id := newId, post := postId, author := actorId, content := content,
      parentComment := parentCommentId, replies := [], votes := ⟨[], []⟩,
      isEdited := false, isDeleted := false, createdAt := now }
  { posts := s.posts.map
      (fun p => if p.id = postId then { p with comments := p.comments ++ [newId] } else p),
    comments :=
      match parentCommentId with
      | some pid =>
        (s.comments ++ [newComment]).map (fun c => if c.id = pid then c.addReply newId else c)
      | none => s.comments ++ [newComment],
    karma := fun u => if u = actorId then s.karma u + 1 else s.karma u }

/-- The createComment route (comment.routes, router.post): content
length validation (1 to 5000 characters; the trim sanitizer of the
validation middleware runs upstream, so content is taken as already
trimmed), post existence and soft-delete check, then parent existence
and soft-delete check. The route performs NO check that the parent
belongs to the same post. newId models the fresh ObjectId generated for
the comment and now its creation timestamp. -/
def createComment (s : SysState) (actorId postId : Nat) (content : String)
    (parentCommentId : Option Nat) (newId now : Nat) : Except CommentErr SysState :=
  if content.length < 1 ∨ 5000 < content.length then .error .invalidContent
  else
    match s.posts.find? (fun p => decide (p.id = postId)) with
    | none => .error .postNotFound
    | some post =>
      if post.isDeleted then .error .postNotFound
      else
        match parentCommentId with
        | none => .ok (buildState s actorId postId content none newId now)
        | some pid =>
          match s.comments.find? (fun c => decide (c.id = pid)) with
          | none => .error .parentNotFound
          | some parent =>
            if parent.isDeleted then .error .parentNotFound
            else .ok (buildState s actorId postId content (some pid) newId now)

/-- The comment soft-delete route applied to the comment collection:
replace the addressed document by its softDelete image. -/
def softDeleteCommentIn (store : List CommentRec) (i : Nat) : List CommentRec :=
  store.map (fun c => if c.id = i then c.softDelete else c)

/-- Failure surfaced by the createPost route validation (HTTP 400). -/
inductive PostErr where
  | invalidInput
deriving DecidableEq

/-- The createPost route (post.routes, router.post): title and content
length validation, save the new post, and increment the author's karma
by 1 (User.findByIdAndUpdate with $inc karma 1). -/
def createPostRoute (s : SysState) (authorId newPostId : Nat) (title content : String)
    (now : Nat) : Except PostErr SysState :=
  if title.length < 1 ∨ 300 < title.length ∨ content.length < 1 ∨ 10000 < content.length then
    .error .invalidInput
  else
    .ok { posts := s.posts ++
            [{ id := newPostId, author := authorId, title := title, content := content,
               comments := [], votes := ⟨[], []⟩, isDeleted := false, createdAt := now }],
          comments := s.comments,
          karma := fun u => if u = authorId then s.karma u + 1 else s.karma u }

/-- The post delete route (post.routes, router.delete): softDelete the
addressed post; no user document is written, so the karma table is
untouched. The existence and authorization guards of the route are
omitted because they write nothing. -/
def deletePostRoute (s : SysState) (i : Nat) : SysState :=
  { s with posts := s.posts.map (fun p => if p.id = i then p.softDelete else p) }

/-- The comment delete route (comment.routes, router.delete):
softDelete the addressed comment; no user document is written, so the
karma table is untouched. -/
def deleteCommentRoute (s : SysState) (i : Nat) : SysState :=
  { s with comments := softDeleteCommentIn s.comments i }

/-- User document (userSchema): the fields used by the follow route. -/
structure UserRec where
  id : Nat
  followers : List Nat
  following : List Nat
deriving DecidableEq

/-- Failures surfaced by the follow route (HTTP 400 self-follow, 404
target missing; the actor is loaded by the authentication middleware). -/
inductive FollowErr where
  | selfFollow
  | targetNotFound
  | actorNotFound
deriving DecidableEq

/-- Core of the follow route: if the actor already follows the target,
remove the target from the actor's following and the actor from the
target's followers (the JavaScript filter drops every occurrence);
otherwise push both ids. The Bool is the isFollowing flag of the JSON
response. -/
def followUpdate (actor target : UserRec) : UserRec × UserRec × Bool :=
  if target.id ∈ actor.following then
    ({ actor with following := actor.following.filter (fun x => decide (x ≠ target.id)) },
     { target with followers := target.followers.filter (fun x => decide (x ≠ actor.id)) },
     false)
  else
    ({ actor with following := actor.following ++ [target.id] },
     { target with followers := target.followers ++ [actor.id] },
     true)

/-- The follow route (user.routes, router.post follow): reject
self-follows with a 400 before any write, return 404 when the target
does not exist, then apply followUpdate and save both documents. -/
def followRoute (store : List UserRec) (actorId targetId : Nat) :
    Except FollowErr (List UserRec × Bool) :=
  if targetId = actorId then .error .selfFollow
  else
    match store.find? (fun u => decide (u.id = targetId)) with
    | none => .error .targetNotFound
    | some target =>
      match store.find? (fun u => decide (u.id = actorId)) with
      | none => .error .actorNotFound
      | some actor =>
        let r := followUpdate actor target
        .ok (store.map
          (fun u => if u.id = actorId then r.1 else if u.id = targetId then r.2.1 else u),
          r.2.2)

/-- Sample post on which cross-post replies are tested. -/
def samplePost1 : PostRec :=
  { id := 1, author := 100, title := "t1", content := "c1", comments := [],
    votes := ⟨[], []⟩, isDeleted := false, createdAt := 0 }

/-- Second sample post, the one the parent comment belongs to. -/
def samplePost2 : PostRec :=
  { id := 2, author := 100, title := "t2", content := "c2", comments := [10],
    votes := ⟨[], []⟩, isDeleted := false, createdAt := 0 }

/-- Sample parent comment attached to post 2. -/
def crossParent : CommentRec :=
  { id := 10, post := 2, author := 100, content := "parent", parentComment := none,
    replies := [], votes := ⟨[], []⟩, isEdited := false, isDeleted := false, createdAt := 1 }

/-- Sample system state with two posts and one comment on post 2. -/
def sampleState : SysState :=
  { posts := [samplePost1, samplePost2], comments := [crossParent], karma := fun _ => 0 }

/-- Maximum element of an array, the key MongoDB uses when it sorts
documents by an array-valued field in descending order (0 for an empty
array; the counterexample below only compares identical arrays, so the
choice of key for distinct arrays is irrelevant there). -/
def mongoMaxKey (l : List Nat) : Nat := l.foldr max 0

/-- Comparator realised by the code's top sort of comments (sort
specification votes.upvotes descending, then createdAt descending):
true when a is placed strictly before b. -/
def codeTopBefore (a b : CommentRec) : Bool :=
  if mongoMaxKey a.votes.upvotes = mongoMaxKey b.votes.upvotes then
    decide (b.createdAt < a.createdAt)
  else
    decide (mongoMaxKey b.votes.upvotes < mongoMaxKey a.votes.upvotes)

/-- Comparator described by the specification for the top policy:
descending net vote score, tie-break newest first. This definition
follows the specification's words and is compared against the code's
comparator. -/
def specTopBefore (a b : CommentRec) : Bool :=
  if a.votes.voteScore = b.votes.voteScore then
    decide (b.createdAt < a.createdAt)
  else
    decide (b.votes.voteScore < a.votes.voteScore)

/-- Older top-level comment with net score 1 (one upvote from user 5). -/
def topA : CommentRec :=
  { id := 1, post := 1, author := 1, content := "a", parentComment := none,
    replies := [], votes := ⟨[5], []⟩, isEdited := false, isDeleted := false,
    createdAt := 10 }

/-- Newer top-level comment with net score -1: the same single upvoter
5, plus downvotes from users 2 and 3. -/
def topB : CommentRec :=
  { id := 2, post := 1, author := 1, content := "b", parentComment := none,
    replies := [], votes := ⟨[5], [2, 3]⟩, isEdited := false, isDeleted := false,
    createdAt := 20 }

/-- Sample comment store for the soft-delete frame property: a parent
and one reply. -/
def delParent : CommentRec :=
  { id := 1, post := 1, author := 1, content := "p", parentComment := none,
    replies := [2], votes := ⟨[], []⟩, isEdited := false, isDeleted := false,
    createdAt := 0 }

/-- Child comment of delParent. -/
def delChild : CommentRec :=
  { id := 2, post := 1, author := 2, content := "c", parentComment := some 1,
    replies := [], votes := ⟨[], []⟩, isEdited := false, isDeleted := false,
    createdAt := 1 }

/-- Sample comment store containing delParent and delChild. -/
def delStore : List CommentRec := [delParent, delChild]

/-- Sample user 1, who follows user 2. -/
def fu1 : UserRec := { id := 1, followers := [], following := [2] }

/-- Sample user 2, followed by user 1. -/
def fu2 : UserRec := { id := 2, followers := [1], following := [] }

/-- Sample user store for the follow route. -/
def fstore : List UserRec := [fu1, fu2]

/-- Claim C1 check: the code's karma change on retraction of an upvote.
The voter 1 is already in upvotes; hitting the upvote route removes the
vote (retraction) but leaves the author's karma unchanged, while the
specified transition table demands a delta of -1. -/
theorem upvote_retraction_karma_unchanged :
    (upvoteRoute ⟨[1], []⟩ 5 1).2 = 5 ∧
    (upvoteRoute ⟨[1], []⟩ 5 1).1 = ⟨[], []⟩ ∧
    (5 : Int) + (-1) ≠ 5 := by
  decide

/-- Claim C2 check: a single downvote from the neutral state leaves the
author's karma unchanged (total delta 0), while the entity's vote score
becomes -1; the claimed telescoping-sum property fails. -/
theorem downvote_sequence_karma_diverges :
    runOps (⟨[], []⟩, 5) [VoteOp.down 1] = (⟨[], [1]⟩, 5) ∧
    Votes.voteScore ⟨[], [1]⟩ = -1 ∧
    ((5 : Int) - 5) ≠ -1 := by
  decide

/-- Helper: one upvote-method call by voter u preserves the bound of at
most one occurrence of u in each vote array, and afterwards u is in at
most one of the two arrays. -/
theorem upvote_count_inv (v : Votes) (u : Nat)
    (h1 : List.count u v.upvotes ≤ 1) (h2 : List.count u v.downvotes ≤ 1) :
    List.count u (v.upvote u).upvotes ≤ 1 ∧ List.count u (v.upvote u).downvotes ≤ 1 ∧
    ¬(u ∈ (v.upvote u).upvotes ∧ u ∈ (v.upvote u).downvotes) := by
  by_cases hu : u ∈ v.upvotes
  · have hc : 0 < List.count u v.upvotes := List.count_pos_iff.mpr hu
    simp only [Votes.upvote, if_pos hu]
    refine ⟨?_, h2, ?_⟩
    · rw [List.count_erase_self]; omega
    · rintro ⟨hmem, -⟩
      have := List.count_pos_iff.mpr hmem
      rw [List.count_erase_self] at this
      omega
  · have hc : List.count u v.upvotes = 0 := List.count_eq_zero.mpr hu
    simp only [Votes.upvote, if_neg hu]
    refine ⟨?_, ?_, ?_⟩
    · simp [List.count_append, hc]
    · by_cases hd : u ∈ v.downvotes
      · simp only [if_pos hd]
        rw [List.count_erase_self]; omega
      · simpa [if_neg hd] using h2
    · rintro ⟨-, hdown⟩
      by_cases hd : u ∈ v.downvotes
      · simp only [if_pos hd] at hdown
        have hcd : 0 < List.count u v.downvotes := List.count_pos_iff.mpr hd
        have := List.count_pos_iff.mpr hdown
        rw [List.count_erase_self] at this
        omega
      · simp only [if_neg hd] at hdown
        exact hd hdown

/-- Helper: one downvote-method call by voter u preserves the bound of
at most one occurrence of u in each vote array, and afterwards u is in
at most one of the two arrays. -/
theorem downvote_count_inv (v : Votes) (u : Nat)
    (h1 : List.count u v.upvotes ≤ 1) (h2 : List.count u v.downvotes ≤ 1) :
    List.count u (v.downvote u).upvotes ≤ 1 ∧ List.count u (v.downvote u).downvotes ≤ 1 ∧
    ¬(u ∈ (v.downvote u).upvotes ∧ u ∈ (v.downvote u).downvotes) := by
  by_cases hd : u ∈ v.downvotes
  · have hc : 0 < List.count u v.downvotes := List.count_pos_iff.mpr hd
    simp only [Votes.downvote, if_pos hd]
    refine ⟨h1, ?_, ?_⟩
    · rw [List.count_erase_self]; omega
    · rintro ⟨-, hmem⟩
      have := List.count_pos_iff.mpr hmem
      rw [List.count_erase_self] at this
      omega
  · have hc : List.count u v.downvotes = 0 := List.count_eq_zero.mpr hd
    simp only [Votes.downvote, if_neg hd]
    refine ⟨?_, ?_, ?_⟩
    · by_cases hu : u ∈ v.upvotes
      · simp only [if_pos hu]
        rw [List.count_erase_self]; omega
      · simpa [if_neg hu] using h1
    · simp [List.count_append, hc]
    · rintro ⟨hup, -⟩
      by_cases hu : u ∈ v.upvotes
      · simp only [if_pos hu] at hup
        have hcu : 0 < List.count u v.upvotes := List.count_pos_iff.mpr hu
        have := List.count_pos_iff.mpr hup
        rw [List.count_erase_self] at this
        omega
      · simp only [if_neg hu] at hup
        exact hu hup

/-- Helper: along any sequence of vote-method calls by voter u, the
count bound and the mutual-exclusion property are maintained. -/
theorem runDirs_inv (u : Nat) (ds : List Dir) (v : Votes)
    (h1 : List.count u v.upvotes ≤ 1) (h2 : List.count u v.downvotes ≤ 1)
    (h3 : ¬(u ∈ v.upvotes ∧ u ∈ v.downvotes)) :
    List.count u (runDirs v u ds).upvotes ≤ 1 ∧
    List.count u (runDirs v u ds).downvotes ≤ 1 ∧
    ¬(u ∈ (runDirs v u ds).upvotes ∧ u ∈ (runDirs v u ds).downvotes) := by
  induction ds generalizing v with
  | nil => exact ⟨h1, h2, h3⟩
  | cons d ds ih =>
    cases d with
    | up =>
      have step := upvote_count_inv v u h1 h2
      exact ih (v.upvote u) step.1 step.2.1 step.2.2
    | down =>
      have step := downvote_count_inv v u h1 h2
      exact ih (v.downvote u) step.1 step.2.1 step.2.2

/-- Claim C3: starting from a state in which the voter belongs to
neither vote array, after any sequence of upvote/downvote method calls
by that voter the voter belongs to at most one of the two arrays
(instantiating the sequence at every prefix covers the state after
every single call). -/
theorem voter_in_at_most_one_set (v : Votes) (u : Nat) (ds : List Dir)
    (h1 : u ∉ v.upvotes) (h2 : u ∉ v.downvotes) :
    ¬(u ∈ (runDirs v u ds).upvotes ∧ u ∈ (runDirs v u ds).downvotes) :=
  (runDirs_inv u ds v
    (by simp [List.count_eq_zero.mpr h1])
    (by simp [List.count_eq_zero.mpr h2])
    (by rintro ⟨hmem, -⟩; exact h1 hmem)).2.2

/-- Witness for C3 at a concrete input: voter 2, initial arrays with
only voter 9 present, sequence up, up, down, up. -/
theorem voter_in_at_most_one_set_witness :
    ¬(2 ∈ (runDirs ⟨[9], []⟩ 2 [Dir.up, Dir.up, Dir.down, Dir.up]).upvotes ∧
      2 ∈ (runDirs ⟨[9], []⟩ 2 [Dir.up, Dir.up, Dir.down, Dir.up]).downvotes) :=
  voter_in_at_most_one_set ⟨[9], []⟩ 2 [Dir.up, Dir.up, Dir.down, Dir.up]
    (by decide) (by decide)

/-- Counterexample to claim C4 as stated: double upvote does not, for
every starting state, restore the vote score and reach the neutral
state. From a state where voter 7 is a downvoter, two upvote calls
change the score from -1 to 0; from a state where voter 7 is an
upvoter, two upvote calls leave the voter upvoted, not neutral. -/
theorem double_upvote_claim_false :
    Votes.voteScore (Votes.upvote (Votes.upvote ⟨[], [7]⟩ 7) 7) ≠
      Votes.voteScore ⟨[], [7]⟩ ∧
    Votes.hasVoted (Votes.upvote (Votes.upvote ⟨[7], []⟩ 7) 7) 7 ≠ (false, false) := by
  decide

/-- Claim C4 (amended): starting from a state in which the voter is in
neither vote array, applying the upvote method twice returns the state
to its exact previous value, hence the voter is neutral again and the
vote score is restored. -/
theorem double_upvote_from_neutral_roundtrip (v : Votes) (u : Nat)
    (h1 : u ∉ v.upvotes) (h2 : u ∉ v.downvotes) :
    (v.upvote u).upvote u = v ∧
    Votes.hasVoted ((v.upvote u).upvote u) u = (false, false) ∧
    Votes.voteScore ((v.upvote u).upvote u) = v.voteScore := by
  obtain ⟨up, down⟩ := v
  simp only at h1 h2
  have e1 : Votes.upvote ⟨up, down⟩ u = ⟨up ++ [u], down⟩ := by
    simp [Votes.upvote, h1, h2]
  have e2 : Votes.upvote ⟨up ++ [u], down⟩ u = ⟨up, down⟩ := by
    simp [Votes.upvote, List.erase_append_right _ h1]
  rw [e1, e2]
  refine ⟨rfl, ?_, rfl⟩
  simp [Votes.hasVoted, h1, h2]

/-- Witness for C4 (amended) at a concrete input: voter 5 on a state
with one unrelated upvoter and one unrelated downvoter. -/
theorem double_upvote_from_neutral_roundtrip_witness :
    Votes.voteScore (Votes.upvote (Votes.upvote ⟨[3], [4]⟩ 5) 5) =
      Votes.voteScore ⟨[3], [4]⟩ :=
  (double_upvote_from_neutral_roundtrip ⟨[3], [4]⟩ 5 (by decide) (by decide)).2.2

/-- Counterexample to claim C5 as stated: a reply on post 1 whose
parent comment belongs to post 2 is accepted by the route, because the
route never compares the parent's post with the new comment's post. -/
theorem createComment_cross_post_parent_accepted :
    (createComment sampleState 7 1 "hello" (some 10) 11 2).isOk = true ∧
    crossParent.post ≠ 1 ∧
    sampleState.comments.find? (fun c => decide (c.id = 10)) = some crossParent := by
  refine ⟨rfl, by decide, rfl⟩

/-- Claim C5 (amended): when a parentCommentId is given, createComment
fails with parentNotFound exactly when the parent comment is missing or
soft-deleted; when the parent exists and is not soft-deleted the
request succeeds, with no check that the parent belongs to the same
post. -/
theorem createComment_parent_check (s : SysState) (actorId postId : Nat) (content : String)
    (pid newId now : Nat) (post : PostRec)
    (hlen : 1 ≤ content.length ∧ content.length ≤ 5000)
    (hpost : s.posts.find? (fun p => decide (p.id = postId)) = some post)
    (hpd : post.isDeleted = false) :
    (s.comments.find? (fun c => decide (c.id = pid)) = none →
      createComment s actorId postId content (some pid) newId now = .error .parentNotFound) ∧
    (∀ parent, s.comments.find? (fun c => decide (c.id = pid)) = some parent →
      parent.isDeleted = true →
      createComment s actorId postId content (some pid) newId now = .error .parentNotFound) ∧
    (∀ parent, s.comments.find? (fun c => decide (c.id = pid)) = some parent →
      parent.isDeleted = false →
      createComment s actorId postId content (some pid) newId now =
        .ok (buildState s actorId postId content (some pid) newId now)) := by
  have hnl : ¬(content.length < 1 ∨ 5000 < content.length) := by omega
  refine ⟨?_, ?_, ?_⟩
  · intro h
    simp [createComment, hnl, hpost, hpd, h]
    omega
  · intro parent h hdel
    simp [createComment, hnl, hpost, hpd, h, hdel]
    omega
  · intro parent h hdel
    simp [createComment, hnl, hpost, hpd, h, hdel]
    omega

/-- Witness for C5 (amended) at a concrete input: a reply to comment 10
on its own post 2 succeeds. -/
theorem createComment_parent_check_witness :
    createComment sampleState 7 2 "hello" (some 10) 11 2 =
      .ok (buildState sampleState 7 2 "hello" (some 10) 11 2) :=
  (createComment_parent_check sampleState 7 2 "hello" 10 11 2 samplePost2
    (by decide) rfl rfl).2.2 crossParent rfl rfl

/-- Claim C6 check: the code's top sort (sort key votes.upvotes
descending, createdAt descending) diverges from the specified order by
descending net score with newest-first tie-break. topA and topB have
identical upvote arrays, so under any array comparison the code ties
them and falls back to createdAt, placing the newer, net-score -1
comment topB strictly before the net-score 1 comment topA; the
specified order places topA first. The downvotes never enter the code's
sort key. -/
theorem top_sort_ignores_downvotes :
    topA.votes.upvotes = topB.votes.upvotes ∧
    Votes.voteScore topB.votes < Votes.voteScore topA.votes ∧
    specTopBefore topA topB = true ∧ specTopBefore topB topA = false ∧
    codeTopBefore topB topA = true ∧ codeTopBefore topA topB = false := by
  decide

/-- Helper: adding a fresh reply id leaves exactly one occurrence of it
in the replies array. -/
theorem addReply_count_fresh (c : CommentRec) (r : Nat) (h : r ∉ c.replies) :
    List.count r (c.addReply r).replies = 1 := by
  simp [CommentRec.addReply, h, List.count_append, List.count_eq_zero.mpr h]

/-- Helper: addReply is idempotent, so a reply id is never duplicated
by repeated addReply calls. -/
theorem addReply_idem (c : CommentRec) (r : Nat) :
    (c.addReply r).addReply r = c.addReply r := by
  by_cases h : r ∈ c.replies
  · simp [CommentRec.addReply, h]
  · simp [CommentRec.addReply, h]

/-- Helper: getReplies output is sorted by ascending creation time. -/
theorem getReplies_sorted (store : List CommentRec) (x lim : Nat) :
    List.Sorted createdLE (getReplies store x lim) :=
  List.Pairwise.sublist (List.take_sublist lim _)
    (List.sorted_insertionSort createdLE (store.filter (replyPred x)))

/-- Helper: every comment returned by getReplies is a non-deleted child
of the requested comment. -/
theorem getReplies_mem (store : List CommentRec) (x lim : Nat) (d : CommentRec)
    (hd : d ∈ getReplies store x lim) :
    d.parentComment = some x ∧ d.isDeleted = false := by
  have h1 : d ∈ List.insertionSort createdLE (store.filter (replyPred x)) :=
    List.mem_of_mem_take hd
  have h2 : d ∈ store.filter (replyPred x) :=
    (List.perm_insertionSort createdLE (store.filter (replyPred x))).mem_iff.mp h1
  have h3 := (List.mem_filter.mp h2).2
  simpa [replyPred] using h3

/-- Helper: any successful createComment request produces exactly the
buildState update. -/
theorem createComment_ok_eq (s : SysState) (actorId postId : Nat) (content : String)
    (parentCommentId : Option Nat) (newId now : Nat) (s' : SysState)
    (hok : createComment s actorId postId content parentCommentId newId now = .ok s') :
    s' = buildState s actorId postId content parentCommentId newId now := by
  cases parentCommentId with
  | none =>
    simp only [createComment] at hok
    split at hok
    · exact absurd hok (by simp)
    · split at hok
      · exact absurd hok (by simp)
      · split at hok
        · exact absurd hok (by simp)
        · simp only [Except.ok.injEq] at hok
          exact hok.symm
  | some pid =>
    simp only [createComment] at hok
    split at hok
    · exact absurd hok (by simp)
    · split at hok
      · exact absurd hok (by simp)
      · split at hok
        · exact absurd hok (by simp)
        · split at hok
          · exact absurd hok (by simp)
          · split at hok
            · exact absurd hok (by simp)
            · simp only [Except.ok.injEq] at hok
              exact hok.symm

/-- Claim C7: after a successful reply creation with a fresh id, every
comment document with the parent's id carries the new reply id exactly
once in its replies array; addReply never duplicates an id; and
getReplies returns only non-deleted children of the requested comment,
in ascending creation order. -/
theorem reply_unique_and_ordered (s : SysState) (actorId postId : Nat) (content : String)
    (pid newId now : Nat) (s' : SysState)
    (hok : createComment s actorId postId content (some pid) newId now = .ok s')
    (hfresh : ∀ c ∈ s.comments, newId ∉ c.replies) :
    (∀ p ∈ s'.comments, p.id = pid → List.count newId p.replies = 1) ∧
    (∀ (c : CommentRec) (r : Nat), (c.addReply r).addReply r = c.addReply r) ∧
    (∀ (store : List CommentRec) (x lim : Nat), List.Sorted createdLE (getReplies store x lim)) ∧
    (∀ (store : List CommentRec) (x lim : Nat), ∀ d ∈ getReplies store x lim,
      d.parentComment = some x ∧ d.isDeleted = false) := by
  have hs : s' = buildState s actorId postId content (some pid) newId now :=
    createComment_ok_eq s actorId postId content (some pid) newId now s' hok
  refine ⟨?_, addReply_idem, getReplies_sorted, getReplies_mem⟩
  subst hs
  intro p hp hpid
  simp only [buildState, List.mem_map] at hp
  obtain ⟨c, hc, rfl⟩ := hp
  by_cases hcid : c.id = pid
  · simp only [if_pos hcid]
    apply addReply_count_fresh
    rcases List.mem_append.mp hc with h | h
    · exact hfresh c h
    · simp only [List.mem_singleton] at h
      subst h
      simp
  · simp only [if_neg hcid] at hpid
    exact absurd hpid hcid

/-- Witness for C7 at a concrete input: replying to comment 10 with
fresh id 11 leaves exactly one occurrence of 11 in the parent's replies
array. -/
theorem reply_unique_and_ordered_witness :
    List.count 11 (CommentRec.addReply crossParent 11).replies = 1 :=
  (reply_unique_and_ordered sampleState 7 2 "hi" 10 11 3
      (buildState sampleState 7 2 "hi" (some 10) 11 3) rfl (by decide)).1
    (CommentRec.addReply crossParent 11) (by decide) (by decide)

/-- Helper: soft-deleting comment i changes no document that the
getReplies query for i selects, provided no comment is its own parent,
so the filtered children are unchanged. -/
theorem softDeleteCommentIn_filter (i : Nat) (store : List CommentRec)
    (hself : ∀ c ∈ store, c.id = i → c.parentComment ≠ some i) :
    (softDeleteCommentIn store i).filter (replyPred i) = store.filter (replyPred i) := by
  induction store with
  | nil => rfl
  | cons c cs ih =>
    have hcs : ∀ d ∈ cs, d.id = i → d.parentComment ≠ some i :=
      fun d hd => hself d (List.mem_cons_of_mem c hd)
    have hstep : (softDeleteCommentIn cs i).filter (replyPred i) = cs.filter (replyPred i) :=
      ih hcs
    by_cases hc : c.id = i
    · have hpar : c.parentComment ≠ some i := hself c (List.mem_cons_self c cs) hc
      have h1 : replyPred i c.softDelete = false := by
        simp [replyPred, CommentRec.softDelete]
      have h2 : replyPred i c = false := by
        simp [replyPred, hpar]
      simp only [softDeleteCommentIn, List.map_cons, if_pos hc, List.filter_cons, h1, h2]
      simpa [softDeleteCommentIn] using hstep
    · simp only [softDeleteCommentIn, List.map_cons, if_neg hc, List.filter_cons]
      cases hrp : replyPred i c
      · simpa [hrp, softDeleteCommentIn] using hstep
      · simp only [hrp, if_pos]
        rw [show (cs.map fun c => if c.id = i then c.softDelete else c).filter (replyPred i) =
            cs.filter (replyPred i) from by simpa [softDeleteCommentIn] using hstep]

/-- Claim C8: softDelete sets isDeleted and replaces the content with
the placeholder and changes no other field (replies, parentComment, id,
post, createdAt untouched); every other document in the collection is
untouched; and the children returned by getReplies are the same before
and after the deletion (assuming no comment lists itself as parent). -/
theorem softDelete_frame_and_replies_preserved (store : List CommentRec) (i limit : Nat)
    (hself : ∀ c ∈ store, c.id = i → c.parentComment ≠ some i) :
    (∀ c : CommentRec, (c.softDelete).isDeleted = true ∧ (c.softDelete).content = "[deleted]" ∧
      (c.softDelete).replies = c.replies ∧ (c.softDelete).parentComment = c.parentComment ∧
      (c.softDelete).id = c.id ∧ (c.softDelete).post = c.post ∧
      (c.softDelete).createdAt = c.createdAt) ∧
    (∀ c ∈ store, c.id ≠ i → c ∈ softDeleteCommentIn store i) ∧
    getReplies (softDeleteCommentIn store i) i limit = getReplies store i limit := by
  refine ⟨fun c => ⟨rfl, rfl, rfl, rfl, rfl, rfl, rfl⟩, ?_, ?_⟩
  · intro c hc hne
    exact List.mem_map.mpr ⟨c, hc, if_neg hne⟩
  · unfold getReplies
    rw [softDeleteCommentIn_filter i store hself]

/-- Witness for C8 at a concrete input: soft-deleting parent comment 1
leaves its child comment retrievable via getReplies. -/
theorem softDelete_frame_witness :
    getReplies (softDeleteCommentIn delStore 1) 1 10 = getReplies delStore 1 10 :=
  (softDelete_frame_and_replies_preserved delStore 1 10 (by decide)).2.2

/-- Claim C9: creating a post or a comment (top-level or reply, the
parentCommentId is arbitrary) increments the creating author's karma
by exactly 1 and changes nobody else's karma, and the
soft-delete routes for posts and comments leave the whole karma table
unchanged, so the authorship bonus is never clawed back. -/
theorem authorship_karma_bonus (s : SysState) (a npid i j : Nat) (title content : String)
    (now : Nat) (actorId postId nid cnow : Nat) (ccontent : String)
    (hvalid : 1 ≤ title.length ∧ title.length ≤ 300 ∧
      1 ≤ content.length ∧ content.length ≤ 10000) :
    (∃ s1, createPostRoute s a npid title content now = .ok s1 ∧
      s1.karma a = s.karma a + 1 ∧ ∀ u, u ≠ a → s1.karma u = s.karma u) ∧
    (∀ (pc : Option Nat) (s2 : SysState),
      createComment s actorId postId ccontent pc nid cnow = .ok s2 →
      s2.karma actorId = s.karma actorId + 1 ∧ ∀ u, u ≠ actorId → s2.karma u = s.karma u) ∧
    (deletePostRoute s i).karma = s.karma ∧
    (deleteCommentRoute s j).karma = s.karma := by
  refine ⟨?_, ?_, rfl, rfl⟩
  · have hnl : ¬(title.length < 1 ∨ 300 < title.length ∨
        content.length < 1 ∨ 10000 < content.length) := by omega
    have hres : createPostRoute s a npid title content now =
        .ok { posts := s.posts ++
                [{ id := npid, author := a, title := title, content := content,
                   comments := [], votes := ⟨[], []⟩, isDeleted := false, createdAt := now }],
              comments := s.comments,
              karma := fun u => if u = a then s.karma u + 1 else s.karma u } := by
      unfold createPostRoute
      rw [if_neg hnl]
    exact ⟨_, hres, by simp, fun u hu => by simp [hu]⟩
  · intro pc s2 h2
    have hb := createComment_ok_eq s actorId postId ccontent pc nid cnow s2 h2
    subst hb
    refine ⟨by simp [buildState], fun u hu => by simp [buildState, hu]⟩

/-- Witness for C9 at a concrete input: creating a reply (parent
comment 10) as user 9 increments user 9's karma by exactly 1. -/
theorem authorship_karma_bonus_witness :
    (buildState sampleState 9 2 "cc" (some 10) 12 4).karma 9 = sampleState.karma 9 + 1 :=
  ((authorship_karma_bonus sampleState 1 7 1 2 "t" "c" 0 9 2 12 4 "cc" (by decide)).2.1
    (some 10) (buildState sampleState 9 2 "cc" (some 10) 12 4) rfl).1

/-- Claim C10: self-follows are rejected with an error before any
write; for an existing target the route toggles, removing every
occurrence of the pair when the actor already follows the target and
appending both ids otherwise; afterwards the target id occurs at most
once in the actor's following and the actor id at most once in the
target's followers (assuming the usual bidirectional consistency of the
two lists before the call). -/
theorem follow_toggle_spec (store : List UserRec) (a t : Nat) (actor target : UserRec)
    (hne : t ≠ a)
    (ht : store.find? (fun u => decide (u.id = t)) = some target)
    (ha : store.find? (fun u => decide (u.id = a)) = some actor)
    (hcons : t ∈ actor.following ↔ a ∈ target.followers) :
    followRoute store a a = .error .selfFollow ∧
    followRoute store a t =
      .ok (store.map (fun u => if u.id = a then (followUpdate actor target).1
            else if u.id = t then (followUpdate actor target).2.1 else u),
          (followUpdate actor target).2.2) ∧
    (t ∈ actor.following →
      (followUpdate actor target).1.following =
        actor.following.filter (fun x => decide (x ≠ t)) ∧
      (followUpdate actor target).2.1.followers =
        target.followers.filter (fun x => decide (x ≠ a)) ∧
      (followUpdate actor target).2.2 = false) ∧
    (t ∉ actor.following →
      (followUpdate actor target).1.following = actor.following ++ [t] ∧
      (followUpdate actor target).2.1.followers = target.followers ++ [a] ∧
      (followUpdate actor target).2.2 = true) ∧
    List.count t (followUpdate actor target).1.following ≤ 1 ∧
    List.count a (followUpdate actor target).2.1.followers ≤ 1 := by
  have hti : target.id = t := by
    have h := List.find?_some ht
    simpa using h
  have hai : actor.id = a := by
    have h := List.find?_some ha
    simpa using h
  subst hti
  subst hai
  refine ⟨by simp [followRoute], ?_, ?_, ?_, ?_, ?_⟩
  · simp only [followRoute, if_neg hne, ht, ha]
  · intro hmem
    simp only [followUpdate, if_pos hmem]
    exact ⟨trivial, trivial, trivial⟩
  · intro hmem
    simp only [followUpdate, if_neg hmem]
    exact ⟨trivial, trivial, trivial⟩
  · by_cases hmem : target.id ∈ actor.following
    · simp only [followUpdate, if_pos hmem]
      have hnot : target.id ∉
          actor.following.filter (fun x => decide (x ≠ target.id)) := by
        intro hx
        have := (List.mem_filter.mp hx).2
        simp at this
      rw [List.count_eq_zero.mpr hnot]
      exact Nat.zero_le 1
    · simp only [followUpdate, if_neg hmem]
      rw [List.count_append, List.count_eq_zero.mpr hmem]
      simp
  · by_cases hmem : target.id ∈ actor.following
    · simp only [followUpdate, if_pos hmem]
      have hnot : actor.id ∉
          target.followers.filter (fun x => decide (x ≠ actor.id)) := by
        intro hx
        have := (List.mem_filter.mp hx).2
        simp at this
      rw [List.count_eq_zero.mpr hnot]
      exact Nat.zero_le 1
    · simp only [followUpdate, if_neg hmem]
      have hnot : actor.id ∉ target.followers := fun hx => hmem (hcons.mpr hx)
      rw [List.count_append, List.count_eq_zero.mpr hnot]
      simp

/-- Witness for C10 at a concrete input: user 1 already follows user 2;
calling the follow route toggles to unfollow and user 2 occurs at most
once in user 1's following list afterwards. -/
theorem follow_toggle_spec_witness :
    List.count 2 (followUpdate fu1 fu2).1.following ≤ 1 :=
  (follow_toggle_spec fstore 1 2 fu1 fu2 (by decide) rfl rfl (by decide)).2.2.2.2.1
